import Mathlib

/-!
Shallow embedding of the revenue aggregation and invoice reconciliation
pipeline of `frontend/src/components/ProjectCharts.jsx` (with the status
distribution also present in `static/script.js`).

Spreadsheet rows are JavaScript objects mapping column names to values; we
model the values that occur (numbers and strings) by `JSVal`, and a row by an
association list from field name to value.  Machine floats are modelled by
`ℚ`; `Option ℚ` stands for a number-or-NaN where NaN matters.
-/

/-- A JavaScript value as it appears in parsed spreadsheet rows: a number or a
string.  Numbers are modelled by `ℚ`. -/
inductive JSVal where
  | vNum : ℚ → JSVal
  | vStr : String → JSVal
deriving DecidableEq, Repr

/-- JavaScript truthiness of a `JSVal`: `0` and the empty string are falsy. -/
def JSVal.truthy : JSVal → Bool
  | .vNum q => q ≠ 0
  | .vStr s => s ≠ ""

/-- Truthiness of a possibly absent value (`undefined` is falsy). -/
def truthyOpt : Option JSVal → Bool
  | none => false
  | some v => v.truthy

/-- A parsed spreadsheet row (a JS object): field name to value.  Lookup takes
the first binding, as JS object keys are unique. -/
def Project : Type := List (String × JSVal)

instance : DecidableEq Project := by unfold Project; infer_instance

/-- Field access `project[name]`: `none` models `undefined`. -/
def getField (p : Project) (name : String) : Option JSVal :=
  (p.find? (fun kv => kv.1 == name)).map (·.2)

/-- `project['Project Code']`. -/
def projectCodeOf (p : Project) : Option JSVal :=
  getField p "Project Code"

/-- The deduplication loop of `calculateMonthlyData` (ProjectCharts.jsx
44-57): walk the rows keeping a `seen` set of codes; a row with a truthy
`'Project Code'` is kept iff its code is unseen (and the code is then added to
`seen`); a row with a falsy or absent code is always kept. -/
def dedupAux (seen : List JSVal) : List Project → List Project
  | [] => []
  | p :: ps =>
    match projectCodeOf p with
    | some c =>
      if c.truthy then
        if c ∈ seen then dedupAux seen ps
        else p :: dedupAux (c :: seen) ps
      else p :: dedupAux seen ps
    | none => p :: dedupAux seen ps

/-- `uniqueData` of ProjectCharts.jsx 44-57: the deduplicated row list. -/
def uniqueData (data : List Project) : List Project :=
  dedupAux [] data

/-- The month abbreviations, in order (ProjectCharts.jsx 77). -/
def months : List String :=
  ["Jan", "Feb", "Mar", "Apr", "May", "Jun",
   "Jul", "Aug", "Sep", "Oct", "Nov", "Dec"]

/-- The `monthNumbers` object of ProjectCharts.jsx 214-217, key order as in the
source. -/
def monthNumbers : List (String × ℕ) :=
  [("Jan", 1), ("Feb", 2), ("Mar", 3), ("Apr", 4), ("May", 5), ("Jun", 6),
   ("Jul", 7), ("Aug", 8), ("Sep", 9), ("Oct", 10), ("Nov", 11), ("Dec", 12)]

/-- The template literal `` `${selectedYear} ${month}` `` (ProjectCharts.jsx
100). -/
def monthFieldName (y : ℤ) (m : String) : String :=
  toString y ++ " " ++ m

/-- The contribution of one row to one month bucket (ProjectCharts.jsx
103-119): the value of the field named `"<year> <month>"` when that value is a
number, else 0. -/
def monthContrib (y : ℤ) (m : String) (p : Project) : ℚ :=
  match getField p (monthFieldName y m) with
  | some (.vNum q) => q
  | _ => 0

/-- The final content of `monthlyTotals[m]` (ProjectCharts.jsx 94-122): the
bucket starts at 0 and each row adds its numeric `"<year> <month>"` field, in
row order. -/
def monthlyTotal (l : List Project) (y : ℤ) (m : String) : ℚ :=
  l.foldl (fun acc p => acc + monthContrib y m p) 0

/-- The `monthlyRevenue` array of ProjectCharts.jsx 154, over an already
deduplicated row list. -/
def monthlyRevenueRaw (l : List Project) (y : ℤ) : List ℚ :=
  months.map (fun m => monthlyTotal l y m)

/-- The running-sum loop shared by the monthly and quarterly cumulative
arrays (ProjectCharts.jsx 157-162, 177-182, 359-364), with accumulator. -/
def runningSums (run : ℚ) : List ℚ → List ℚ
  | [] => []
  | x :: xs => (run + x) :: runningSums (run + x) xs

/-- Cumulative array of a revenue array: running total starting from 0. -/
def cumulativeOf (l : List ℚ) : List ℚ :=
  runningSums 0 l

/-- The hard-coded `correctValues` literal of ProjectCharts.jsx 147 and 172. -/
def correctValues : List ℚ :=
  [243500, 683500, 1512768, 619640, 891476, 1341405,
   1020506, 1263522, 881522, 1664908, 1031088, 1887836]

/-- Result state set by `calculateMonthlyData`. -/
structure MonthlyData where
  monthlyRevenue : List ℚ
  cumulativeRevenue : List ℚ
deriving DecidableEq, Repr

/-- `calculateMonthlyData` (ProjectCharts.jsx 37-207): deduplicate, sum the
numeric `"<year> <month>"` fields per month, build the cumulative array; if
the year is 2025 and the computed January total is more than 10000 away from
243500, replace the output by the `correctValues` literal and its running
sums (the emergency override at 168-197).  `none` models the early return on
empty input. -/
def calculateMonthlyData (data : List Project) (selectedYear : ℤ) :
    Option MonthlyData :=
  if data.isEmpty then none
  else
    let workingData := uniqueData data
    let monthlyRevenue := monthlyRevenueRaw workingData selectedYear
    let cumulativeRevenue := cumulativeOf monthlyRevenue
    if selectedYear = 2025 ∧ |monthlyRevenue.getD 0 0 - 243500| > 10000 then
      some ⟨correctValues, cumulativeOf correctValues⟩
    else
      some ⟨monthlyRevenue, cumulativeRevenue⟩

/-- Result state set by `calculateQuarterlyData`. -/
structure QuarterlyData where
  quarterlyRevenue : List ℚ
  cumulativeRevenue : List ℚ
deriving DecidableEq, Repr

/-- `calculateQuarterlyData` (ProjectCharts.jsx 325-372): destructure the
12-entry monthly revenue array, sum it in groups of three, and take running
sums.  `none` models the early return on an empty monthly array; the
destructuring at 337 is modelled by positional access (faithful whenever the
array has its 12 entries, which is the only non-empty shape the component
produces). -/
def calculateQuarterlyData (monthlyRevenue : List ℚ) : Option QuarterlyData :=
  if monthlyRevenue.isEmpty then none
  else
    let jan := monthlyRevenue.getD 0 0
    let feb := monthlyRevenue.getD 1 0
    let mar := monthlyRevenue.getD 2 0
    let apr := monthlyRevenue.getD 3 0
    let may := monthlyRevenue.getD 4 0
    let jun := monthlyRevenue.getD 5 0
    let jul := monthlyRevenue.getD 6 0
    let aug := monthlyRevenue.getD 7 0
    let sep := monthlyRevenue.getD 8 0
    let oct := monthlyRevenue.getD 9 0
    let nov := monthlyRevenue.getD 10 0
    let dec := monthlyRevenue.getD 11 0
    let quarterlyRevenue :=
      [jan + feb + mar, apr + may + jun, jul + aug + sep, oct + nov + dec]
    some ⟨quarterlyRevenue, cumulativeOf quarterlyRevenue⟩

/-- What the quarterly chart displays once the component's effects settle
(ProjectCharts.jsx 374-384): `calculateQuarterlyData` reads the
`monthlyData` state, which `calculateMonthlyData` computed for the monthly
view's `selectedYear`; `selectedYearQuarterly` appears only in labels and in
the dependency list, never in the computation. -/
def quarterlyView (data : List Project) (selectedYear : ℤ)
    (selectedYearQuarterly : ℤ) : Option QuarterlyData :=
  match calculateMonthlyData data selectedYear with
  | none => none
  | some md => calculateQuarterlyData md.monthlyRevenue

/-! ### Numeric parsing of strings (JS `parseFloat` / `Number`) -/

/-- Value of a digit string read in base 10. -/
def digitsVal (cs : List Char) : ℕ :=
  cs.foldl (fun a c => 10 * a + (c.toNat - Char.toNat '0')) 0

/-- Core of JS `parseFloat` on the character alphabet our inputs use (no
exponent part, which cannot survive the `[^0-9.-]` strip and does not occur in
the data): an optional sign, then the longest `digits [. digits]` prefix.
Returns the parsed value and the unconsumed remainder; `none` models NaN. -/
def parseFloatCore (cs : List Char) : Option (ℚ × List Char) :=
  let sign : ℚ × List Char :=
    match cs with
    | '-' :: r => (-1, r)
    | '+' :: r => (1, r)
    | _ => (1, cs)
  let ip := sign.2.takeWhile Char.isDigit
  let r1 := sign.2.dropWhile Char.isDigit
  match r1 with
  | '.' :: r2 =>
    let fp := r2.takeWhile Char.isDigit
    let r3 := r2.dropWhile Char.isDigit
    if ip.isEmpty && fp.isEmpty then none
    else
      some (sign.1 * ((digitsVal ip : ℚ) + (digitsVal fp : ℚ) / (10 : ℚ) ^ fp.length), r3)
  | _ => if ip.isEmpty then none else some (sign.1 * (digitsVal ip : ℚ), r1)

/-- JS `parseFloat(s)`: value of the longest numeric prefix, `none` for NaN. -/
def parseFloatJS (s : String) : Option ℚ :=
  (parseFloatCore s.data).map (·.1)

/-- The regex replace `s.replace(/[^0-9.-]+/g, '')` (ProjectCharts.jsx 260,
543): drop every character that is not a digit, `.` or `-`. -/
def stripNonNumeric (s : String) : String :=
  String.mk (s.data.filter (fun c => c.isDigit || c == '.' || c == '-'))

/-- JS `Number(s)` (as invoked by `isNaN` on a string): trim, empty becomes 0,
otherwise the whole string must be numeric; `none` models NaN. -/
def toNumberString (s : String) : Option ℚ :=
  let t := s.trim
  if t = "" then some 0
  else
    match parseFloatCore t.data with
    | some (q, []) => some q
    | _ => none

/-- JS `ToNumber` of a possibly absent value, as performed by `isNaN`:
`undefined` is NaN, numbers are themselves, strings go through `Number`. -/
def toNumber : Option JSVal → Option ℚ
  | none => none
  | some (.vNum q) => some q
  | some (.vStr s) => toNumberString s

/-- Split a character list at every dash, keeping empty groups (the dash
behaviour of splitting an ISO date string). -/
def splitOnDash : List Char → List (List Char)
  | [] => [[]]
  | c :: rest =>
    if c = '-' then [] :: splitOnDash rest
    else
      match splitOnDash rest with
      | g :: gs => (c :: g) :: gs
      | [] => [[c]]

/-- Models `new Date(s)` followed by the `isNaN(getTime())` validity check and
the `getFullYear()` / `getMonth() + 1` reads (ProjectCharts.jsx 244-255,
290-291), for the ISO `YYYY-MM-DD` strings this dataset uses, with the UTC
timezone assumed for the reads.  Strings in any other format are treated as an
invalid date (day-in-month lengths are not fully checked). -/
def parseDateYM (s : String) : Option (ℤ × ℕ) :=
  match splitOnDash s.data with
  | [ys, ms, ds] =>
    if ys.length = 4 && ys.all Char.isDigit
        && (ms.length = 1 || ms.length = 2) && ms.all Char.isDigit
        && (ds.length = 1 || ds.length = 2) && ds.all Char.isDigit then
      let m := digitsVal ms
      let d := digitsVal ds
      if 1 ≤ m && m ≤ 12 && 1 ≤ d && d ≤ 31 then
        some ((digitsVal ys : ℤ), m)
      else none
    else none
  | _ => none

/-! ### Invoice reconciliation (`calculateInvoiceData`) -/

/-- An invoice row, with the fields `calculateInvoiceData` reads.  `none`
models an absent property. -/
structure Invoice where
  invoice_date : Option JSVal := none
  invoice_month : Option JSVal := none
  invoice_year : Option JSVal := none
  invoice_month_name : Option JSVal := none
  payment_amount_usd : Option JSVal := none
deriving DecidableEq, Repr

/-- The payment-amount expression of ProjectCharts.jsx 258-260: a number is
used as is; anything else is stringified, stripped of every character other
than digits, `.` and `-`, parsed with `parseFloat`, and NaN is turned into 0
by `|| 0`.  (The enclosing code only reaches this with a truthy value, so the
`value || '0'` default is the value itself.) -/
def paymentAmountVal : JSVal → ℚ
  | .vNum q => q
  | .vStr s => (parseFloatJS (stripNonNumeric s)).getD 0

/-- The payment amount read from an invoice row. -/
def paymentAmountOf (inv : Invoice) : ℚ :=
  match inv.payment_amount_usd with
  | some v => paymentAmountVal v
  | none => 0

/-- An invoice row that `calculateInvoiceData` skips before any bucket is
touched: falsy `payment_amount_usd` (guard at 235) or a parsed amount that is
not positive (guard at 263). -/
def invalidPayment (inv : Invoice) : Bool :=
  !truthyOpt inv.payment_amount_usd || decide (paymentAmountOf inv ≤ 0)

/-- `monthlyPayments[m] += amount` on the bucket map. -/
def bump (mp : String → ℚ) (m : String) (amount : ℚ) : String → ℚ :=
  fun k => if k = m then mp k + amount else mp k

/-- `Object.keys(monthNumbers).find(key => monthNumbers[key] === n)` for a
number `n` (ProjectCharts.jsx 280, 294). -/
def findMonthByNum (n : ℚ) : Option String :=
  (monthNumbers.find? (fun kv => (kv.2 : ℚ) = n)).map (·.1)

/-- The `invoice_date` parse of ProjectCharts.jsx 244-255: attempted only for
a truthy `invoice_date` value; an unparsable date leaves `invoiceDate` null.
Numeric timestamps are outside the model (the dataset's dates are strings). -/
def invoiceDateOf (inv : Invoice) : Option (ℤ × ℕ) :=
  match inv.invoice_date with
  | some (.vStr s) => if s ≠ "" then parseDateYM s else none
  | _ => none

/-- One iteration of the invoice loop of `calculateInvoiceData`
(ProjectCharts.jsx 232-313), transforming the `monthlyPayments` buckets:

* guard: skip rows with falsy `payment_amount_usd`;
* parse the payment amount; skip if it is not positive;
* rule 1 (271-287): if `isNaN` rejects neither `invoice_month` nor
  `invoice_year`, the month is in `[1,12]`, and `invoice_year` is strictly
  equal to the selected year, look the month key up by strict equality with
  `invoice_month`; on success add and set `monthAdded`;
* rule 2 (289-300): if `monthAdded` is not set and the parsed date's year is
  the selected year, add to the date's month — the source does NOT set
  `monthAdded` here;
* rule 3 (302-309): if `monthAdded` is not set and `invoice_month_name` is
  truthy, take its first three characters; if they are a month abbreviation
  and `invoice_year` is falsy or strictly equal to the selected year, add.
  A truthy non-string `invoice_month_name` throws in `substring` and the
  row's remaining processing is cut short by the `catch`, which at this last
  step changes nothing. -/
def invoiceStep (selectedYear : ℤ) (mp : String → ℚ) (inv : Invoice) :
    String → ℚ :=
  if !truthyOpt inv.payment_amount_usd then mp
  else
    let paymentAmount := paymentAmountOf inv
    if paymentAmount ≤ 0 then mp
    else
      let rule1Guard : Bool :=
        match toNumber inv.invoice_month, toNumber inv.invoice_year with
        | some m, some _ =>
          decide (1 ≤ m) && decide (m ≤ 12)
            && decide (inv.invoice_year = some (.vNum (selectedYear : ℚ)))
        | _, _ => false
      let month1 : Option String :=
        match inv.invoice_month with
        | some (.vNum q) => findMonthByNum q
        | _ => none
      let step1 : (String → ℚ) × Bool :=
        if rule1Guard then
          match month1 with
          | some m => (bump mp m paymentAmount, true)
          | none => (mp, false)
        else (mp, false)
      let mp2 : String → ℚ :=
        if !step1.2 then
          match invoiceDateOf inv with
          | some (y, mn) =>
            if y = selectedYear then
              match findMonthByNum (mn : ℚ) with
              | some m => bump step1.1 m paymentAmount
              | none => step1.1
            else step1.1
          | none => step1.1
        else step1.1
      if !step1.2 then
        match inv.invoice_month_name with
        | some (.vStr s) =>
          if s ≠ "" then
            let m := s.take 3
            if months.contains m
                && (!truthyOpt inv.invoice_year
                    || decide (inv.invoice_year = some (.vNum (selectedYear : ℚ)))) then
              bump mp2 m paymentAmount
            else mp2
          else mp2
        | _ => mp2
      else mp2

/-- The final `monthlyPayments` buckets after the loop of
`calculateInvoiceData`. -/
def monthlyPaymentsOf (invoiceData : List Invoice) (selectedYear : ℤ) :
    String → ℚ :=
  invoiceData.foldl (invoiceStep selectedYear) (fun _ => 0)

/-- `calculateInvoiceData` (ProjectCharts.jsx 210-322): initialise the twelve
buckets to 0, run the loop, and read the buckets out in month order.  `none`
models the early return on empty input. -/
def calculateInvoiceData (invoiceData : List Invoice) (selectedYear : ℤ) :
    Option (List ℚ) :=
  if invoiceData.isEmpty then none
  else some (months.map (monthlyPaymentsOf invoiceData selectedYear))

/-! ### Status distribution -/

/-- Models JS `String(v)`: exact for strings and integer numbers (the only
statuses that occur); a non-integer number is rendered as its `ℚ` literal. -/
def jsStringOf : JSVal → String
  | .vStr s => s
  | .vNum q => if q.den = 1 then toString q.num else toString q

/-- The status key of one row (ProjectCharts.jsx 560):
`String(project['Project Status'] || 'Unknown')` — a falsy or absent status
becomes the literal `"Unknown"`. -/
def statusOf (p : Project) : String :=
  match getField p "Project Status" with
  | some v => if v.truthy then jsStringOf v else "Unknown"
  | none => "Unknown"

/-- The `statusCounts` reduce of ProjectCharts.jsx 559-563, the final object
read as a count function (an absent key reads as 0). -/
def statusCounts (data : List Project) : String → ℕ :=
  data.foldl
    (fun acc p => fun s => if s = statusOf p then acc s + 1 else acc s)
    (fun _ => 0)

/-! ### Concrete example rows used by the theorems -/

/-- The code a row is deduplicated under: its `'Project Code'` when truthy. -/
def keptCode (p : Project) : Option JSVal :=
  match projectCodeOf p with
  | some c => if c.truthy then some c else none
  | none => none

/-- First row of the spec's duplicate-code example: code P1, 2025 Jan = 100. -/
def projP1a : Project :=
  [("Project Code", .vStr "P1"), ("2025 Jan", .vNum 100)]

/-- Second row of the duplicate-code example: code P1, 2025 Jan = 900. -/
def projP1b : Project :=
  [("Project Code", .vStr "P1"), ("2025 Jan", .vNum 900)]

/-- A row whose 2025 January value (5) is far from the hard-coded 243500, so
the emergency override fires. -/
def projOffJan : Project :=
  [("Project Code", .vStr "X"), ("2025 Jan", .vNum 5)]

/-- A dataset whose 2024 and 2025 January totals differ (and whose 2025
January equals 243500, so the override stays quiet). -/
def dataTwoYears : List Project :=
  [[("Project Code", .vStr "P1"), ("2024 Jan", .vNum 5),
    ("2025 Jan", .vNum 243500)]]

/-- An invoice carrying both a valid 2025-03-15 date and a month name, with no
usable `invoice_month`/`invoice_year` pair. -/
def invDateAndName : Invoice :=
  { invoice_date := some (.vStr "2025-03-15"),
    invoice_month_name := some (.vStr "January"),
    payment_amount_usd := some (.vNum 100) }

/-- An invoice whose payment amount is the unparsable string N/A. -/
def invNA : Invoice :=
  { payment_amount_usd := some (.vStr "N/A") }

/-- An invoice resolved only through `invoice_month_name`, with no date and no
`invoice_year`. -/
def invMonthNameOnly (p : ℚ) : Invoice :=
  { invoice_month_name := some (.vStr "January"),
    payment_amount_usd := some (.vNum p) }

/-- The spec's status-distribution example rows. -/
def exStatusRows : List Project :=
  [[("Project Status", .vStr "Active")], [("Project Status", .vStr "Active")], []]

/-! ### Helper lemmas -/

theorem foldl_add_eq_sum {α : Type} (f : α → ℚ) (l : List α) (init : ℚ) :
    l.foldl (fun acc p => acc + f p) init = init + (l.map f).sum := by
  induction l generalizing init with
  | nil => simp
  | cons p ps ih =>
    simp only [List.foldl_cons, List.map_cons, List.sum_cons, ih]
    ring

theorem monthlyTotal_eq_sum (l : List Project) (y : ℤ) (m : String) :
    monthlyTotal l y m = (l.map (monthContrib y m)).sum := by
  simpa using foldl_add_eq_sum (monthContrib y m) l 0

theorem runningSums_length (run : ℚ) (l : List ℚ) :
    (runningSums run l).length = l.length := by
  induction l generalizing run with
  | nil => rfl
  | cons x xs ih => simp [runningSums, ih]

theorem runningSums_getD (l : List ℚ) (run : ℚ) (i : ℕ) (hi : i < l.length) :
    (runningSums run l).getD i 0 = run + ((l.take (i + 1)).sum) := by
  induction l generalizing run i with
  | nil => simp at hi
  | cons x xs ih =>
    cases i with
    | zero => simp [runningSums]
    | succ j =>
      have hj : j < xs.length := by simpa using hi
      simp only [runningSums, List.getD_cons_succ, List.take_succ_cons,
        List.sum_cons]
      rw [ih (run + x) j hj]
      ring

theorem monthlyRevenueRaw_length (l : List Project) (y : ℤ) :
    (monthlyRevenueRaw l y).length = 12 := by
  simp [monthlyRevenueRaw, months]

theorem monthFieldName_2025 (m : String) :
    monthFieldName 2025 m = "2025 " ++ m := rfl

theorem monthFieldName_2024 (m : String) :
    monthFieldName 2024 m = "2024 " ++ m := rfl

theorem list_len12_explode (l : List ℚ) (h : l.length = 12) :
    ∃ a b c d e f g h2 i j k m, l = [a, b, c, d, e, f, g, h2, i, j, k, m] := by
  rcases l with _ | ⟨a, l⟩; · simp at h
  rcases l with _ | ⟨b, l⟩; · simp at h
  rcases l with _ | ⟨c, l⟩; · simp at h
  rcases l with _ | ⟨d, l⟩; · simp at h
  rcases l with _ | ⟨e, l⟩; · simp at h
  rcases l with _ | ⟨f, l⟩; · simp at h
  rcases l with _ | ⟨g, l⟩; · simp at h
  rcases l with _ | ⟨h2, l⟩; · simp at h
  rcases l with _ | ⟨i, l⟩; · simp at h
  rcases l with _ | ⟨j, l⟩; · simp at h
  rcases l with _ | ⟨k, l⟩; · simp at h
  rcases l with _ | ⟨m, l⟩; · simp at h
  have hl : l = [] := by
    simpa using h
  subst hl
  exact ⟨a, b, c, d, e, f, g, h2, i, j, k, m, rfl⟩

/-- C2: for a 12-entry monthly expected-revenue array, `calculateQuarterlyData`
returns exactly the quarterly rollup of that array — quarter k is the sum of
the three monthly values of months 3k-2..3k, the cumulative quarterly array is
the running sum of the quarterly totals, and the final cumulative quarterly
value equals the sum of all 12 monthly values. -/
theorem quarterly_rollup_from_monthly (mr : List ℚ) (h : mr.length = 12) :
    calculateQuarterlyData mr =
      some ⟨[(mr.take 3).sum, ((mr.drop 3).take 3).sum,
             ((mr.drop 6).take 3).sum, ((mr.drop 9).take 3).sum],
            cumulativeOf [(mr.take 3).sum, ((mr.drop 3).take 3).sum,
             ((mr.drop 6).take 3).sum, ((mr.drop 9).take 3).sum]⟩
    ∧ (calculateQuarterlyData mr).map (fun qd => qd.cumulativeRevenue.getD 3 0)
        = some mr.sum := by
  obtain ⟨a, b, c, d, e, f, g, h2, i, j, k, m, rfl⟩ := list_len12_explode mr h
  constructor
  · simp only [calculateQuarterlyData, cumulativeOf, runningSums]
    simp
    and_intros <;> ring
  · simp [calculateQuarterlyData, cumulativeOf, runningSums]
    ring

/-- Witness for C2: the quarterly rollup of a concrete monthly array, its
final cumulative value being the full-year total 78. -/
theorem quarterly_rollup_from_monthly_witness :
    (calculateQuarterlyData [1, 2, 3, 4, 5, 6, 7, 8, 9, 10, 11, 12]).map
        (fun qd => qd.cumulativeRevenue.getD 3 0) = some 78 := by
  have h := (quarterly_rollup_from_monthly
    [1, 2, 3, 4, 5, 6, 7, 8, 9, 10, 11, 12] (by decide)).2
  rw [h]
  norm_num

/-- C5: whenever the selected year is 2025 and the computed January total of
the deduplicated data differs from 243500 by more than 10000, the emergency
override replaces the monthly output wholesale by the `correctValues` literal
and its running sums, regardless of the uploaded data. -/
theorem emergency_override_2025 (data : List Project) (y : ℤ)
    (hne : data ≠ []) (hy : y = 2025)
    (hoff : |(monthlyRevenueRaw (uniqueData data) y).getD 0 0 - 243500| > 10000) :
    calculateMonthlyData data y
      = some ⟨correctValues, cumulativeOf correctValues⟩ := by
  subst hy
  have h1 : data.isEmpty = false := by
    simpa [List.isEmpty_iff] using hne
  simp only [calculateMonthlyData, h1, Bool.false_eq_true, if_false]
  rw [if_pos ⟨trivial, hoff⟩]

/-- Witness for C5: a dataset whose 2025 January total is 5 triggers the
override. -/
theorem emergency_override_2025_witness :
    calculateMonthlyData [projOffJan] 2025
      = some ⟨correctValues, cumulativeOf correctValues⟩ :=
  emergency_override_2025 [projOffJan] 2025 (by decide) rfl (by
    have h5 : (monthlyRevenueRaw (uniqueData [projOffJan]) 2025).getD 0 0 = 5 := by
      simp [monthlyRevenueRaw, months, monthlyTotal, uniqueData, dedupAux,
        projOffJan, projectCodeOf, getField, monthContrib, monthFieldName_2025,
        JSVal.truthy]
    rw [h5]
    norm_num)

/-- C6: over an already deduplicated row list, the monthly revenue entry of
month i is the sum over all rows of the numeric value of the field literally
named after the year and month (absent and non-numeric fields contributing 0),
and the cumulative entry of month i is the sum of the monthly values of months
1..i+1. -/
theorem monthly_totals_are_field_sums (l : List Project) (y : ℤ) (i : ℕ)
    (hi : i < 12) :
    (monthlyRevenueRaw l y).getD i 0
        = (l.map (monthContrib y (months.getD i ""))).sum
    ∧ (cumulativeOf (monthlyRevenueRaw l y)).getD i 0
        = ((monthlyRevenueRaw l y).take (i + 1)).sum
    ∧ (∀ p : Project, getField p (monthFieldName y (months.getD i "")) = none →
        monthContrib y (months.getD i "") p = 0)
    ∧ (∀ (p : Project) (s : String),
        getField p (monthFieldName y (months.getD i "")) = some (.vStr s) →
        monthContrib y (months.getD i "") p = 0) := by
  refine ⟨?_, ?_, ?_, ?_⟩
  · interval_cases i <;>
      simp [monthlyRevenueRaw, months, monthlyTotal_eq_sum]
  · have hlen : i < (monthlyRevenueRaw l y).length := by
      rw [monthlyRevenueRaw_length]; exact hi
    simpa [cumulativeOf] using
      runningSums_getD (monthlyRevenueRaw l y) 0 i hlen
  · intro p hp
    generalize months.getD i "" = mm at hp ⊢
    simp [monthContrib, hp]
  · intro p s hp
    generalize months.getD i "" = mm at hp ⊢
    simp [monthContrib, hp]

/-- Witness for C6: the January 2025 entry for a single concrete row. -/
theorem monthly_totals_are_field_sums_witness :
    (monthlyRevenueRaw [projP1a] 2025).getD 0 0 = 100 := by
  have h := (monthly_totals_are_field_sums [projP1a] 2025 0 (by norm_num)).1
  rw [h]
  simp [months, monthContrib, projP1a, getField, monthFieldName_2025]

theorem keptCode_eq_some {p : Project} {c : JSVal} :
    keptCode p = some c ↔ projectCodeOf p = some c ∧ c.truthy = true := by
  unfold keptCode
  cases h : projectCodeOf p with
  | none => simp
  | some c2 =>
    by_cases ht : c2.truthy
    · simp only [ht, if_true, Option.some.injEq]
      constructor
      · rintro rfl; exact ⟨rfl, ht⟩
      · rintro ⟨rfl, _⟩; rfl
    · simp only [ht, Bool.false_eq_true, if_false]
      constructor
      · rintro ⟨⟩
      · rintro ⟨h2, htr⟩
        cases Option.some.inj h2
        exact absurd htr ht

theorem dedupAux_sublist (l : List Project) :
    ∀ seen, (dedupAux seen l).Sublist l := by
  induction l with
  | nil => intro seen; simp [dedupAux]
  | cons q ps ih =>
    intro seen
    simp only [dedupAux]
    cases hq : projectCodeOf q with
    | none => exact (ih seen).cons₂ q
    | some cq =>
      by_cases ht : cq.truthy
      · by_cases hs : cq ∈ seen
        · simp only [ht, if_true, hs]
          exact (ih seen).cons q
        · simp only [ht, if_true, hs, if_false]
          exact (ih (cq :: seen)).cons₂ q
      · simp only [ht, Bool.false_eq_true, if_false]
        exact (ih seen).cons₂ q

theorem dedupAux_mem_code_notin_seen (l : List Project) :
    ∀ seen p, p ∈ dedupAux seen l → ∀ c, keptCode p = some c → c ∉ seen := by
  induction l with
  | nil =>
    intro seen p hp
    simp [dedupAux] at hp
  | cons q ps ih =>
    intro seen p hp c hc
    simp only [dedupAux] at hp
    cases hq : projectCodeOf q with
    | none =>
      rw [hq] at hp
      rcases List.mem_cons.mp hp with rfl | hmem
      · obtain ⟨hcode, _⟩ := keptCode_eq_some.mp hc
        rw [hq] at hcode
        cases hcode
      · exact ih seen p hmem c hc
    | some cq =>
      rw [hq] at hp
      by_cases ht : cq.truthy
      · by_cases hs : cq ∈ seen
        · simp only [ht, if_true, hs] at hp
          exact ih seen p hp c hc
        · simp only [ht, if_true, hs, if_false] at hp
          rcases List.mem_cons.mp hp with rfl | hmem
          · obtain ⟨hcode, _⟩ := keptCode_eq_some.mp hc
            rw [hq] at hcode
            cases Option.some.inj hcode
            exact hs
          · intro hcin
            exact ih (cq :: seen) p hmem c hc (List.mem_cons_of_mem _ hcin)
      · simp only [ht, Bool.false_eq_true, if_false] at hp
        rcases List.mem_cons.mp hp with rfl | hmem
        · obtain ⟨hcode, htr⟩ := keptCode_eq_some.mp hc
          rw [hq] at hcode
          cases Option.some.inj hcode
          exact absurd htr ht
        · exact ih seen p hmem c hc

theorem dedupAux_keptCodes_nodup (l : List Project) :
    ∀ seen, ((dedupAux seen l).filterMap keptCode).Nodup := by
  induction l with
  | nil => intro seen; simp [dedupAux]
  | cons q ps ih =>
    intro seen
    simp only [dedupAux]
    cases hq : projectCodeOf q with
    | none =>
      have hk : keptCode q = none := by rw [keptCode, hq]
      simp [List.filterMap_cons, hk, ih seen]
    | some cq =>
      by_cases ht : cq.truthy
      · by_cases hs : cq ∈ seen
        · simp only [ht, if_true, hs]
          exact ih seen
        · have hk : keptCode q = some cq := keptCode_eq_some.mpr ⟨hq, ht⟩
          simp only [ht, if_true, hs, if_false, List.filterMap_cons, hk]
          refine List.nodup_cons.mpr ⟨?_, ih (cq :: seen)⟩
          intro hmem
          rcases List.mem_filterMap.mp hmem with ⟨p, hp, hpc⟩
          exact dedupAux_mem_code_notin_seen ps (cq :: seen) p hp cq hpc
            (List.mem_cons_self _ _)
      · have hk : keptCode q = none := by
          rw [keptCode, hq]
          simp [ht]
        simp only [ht, Bool.false_eq_true, if_false, List.filterMap_cons, hk]
        exact ih seen

theorem dedupAux_countP_codeless (l : List Project) :
    ∀ seen, (dedupAux seen l).countP (fun p => (keptCode p).isNone)
      = l.countP (fun p => (keptCode p).isNone) := by
  induction l with
  | nil => intro seen; rfl
  | cons q ps ih =>
    intro seen
    simp only [dedupAux]
    cases hq : projectCodeOf q with
    | none =>
      simp [List.countP_cons, ih seen]
    | some cq =>
      by_cases ht : cq.truthy
      · have hk : keptCode q = some cq := keptCode_eq_some.mpr ⟨hq, ht⟩
        by_cases hs : cq ∈ seen
        · simp only [ht, if_true, hs]
          simp [List.countP_cons, ih seen, hk]
        · simp only [ht, if_true, hs, if_false]
          simp [List.countP_cons, ih (cq :: seen), hk]
      · simp only [ht, Bool.false_eq_true, if_false]
        simp [List.countP_cons, ih seen]

theorem dedupAux_first_kept (l : List Project) :
    ∀ seen c p, c ∉ seen →
      l.find? (fun q => decide (keptCode q = some c)) = some p →
      p ∈ dedupAux seen l := by
  induction l with
  | nil =>
    intro seen c p _ h
    simp at h
  | cons q ps ih =>
    intro seen c p hcs hf
    by_cases hq : keptCode q = some c
    · have hp : p = q := by
        rw [List.find?_cons_of_pos _ (by simpa using hq)] at hf
        exact (Option.some.inj hf).symm
      subst hp
      obtain ⟨hcode, htr⟩ := keptCode_eq_some.mp hq
      simp only [dedupAux, hcode, htr, if_true, hcs, if_false]
      exact List.mem_cons_self _ _
    · have hf2 : ps.find? (fun q2 => decide (keptCode q2 = some c)) = some p := by
        rwa [List.find?_cons_of_neg _ (by simpa using hq)] at hf
      simp only [dedupAux]
      cases hqc : projectCodeOf q with
      | none => exact List.mem_cons_of_mem _ (ih seen c p hcs hf2)
      | some cq =>
        by_cases ht : cq.truthy
        · by_cases hs : cq ∈ seen
          · simp only [ht, if_true, hs]
            exact ih seen c p hcs hf2
          · simp only [ht, if_true, hs, if_false]
            refine List.mem_cons_of_mem _ (ih (cq :: seen) c p ?_ hf2)
            intro hcin
            rcases List.mem_cons.mp hcin with rfl | hcin2
            · exact hq (keptCode_eq_some.mpr ⟨hqc, ht⟩)
            · exact hcs hcin2
        · simp only [ht, Bool.false_eq_true, if_false]
          exact List.mem_cons_of_mem _ (ih seen c p hcs hf2)

/-- C3: deduplication returns a subsequence of the input in which the truthy
project codes are pairwise distinct (a record whose code equals that of an
earlier record is dropped), every record with an absent or falsy code is kept
(as many as the input has), and the first record bearing any given code is
kept; consequently, for two records sharing code P1 with January-2025 values
100 and 900, the aggregated January-2025 expected revenue is 100, not 1000. -/
theorem dedup_first_wins :
    (∀ l : List Project,
      (uniqueData l).Sublist l
      ∧ ((uniqueData l).filterMap keptCode).Nodup
      ∧ (uniqueData l).countP (fun p => (keptCode p).isNone)
          = l.countP (fun p => (keptCode p).isNone)
      ∧ ∀ (c : JSVal) (p : Project),
          l.find? (fun q => decide (keptCode q = some c)) = some p →
          p ∈ uniqueData l)
    ∧ monthlyTotal (uniqueData [projP1a, projP1b]) 2025 "Jan" = 100 := by
  constructor
  · intro l
    exact ⟨dedupAux_sublist l [], dedupAux_keptCodes_nodup l [],
      dedupAux_countP_codeless l [],
      fun c p h => dedupAux_first_kept l [] c p (by simp) h⟩
  · simp [monthlyTotal, uniqueData, dedupAux, projP1a, projP1b, projectCodeOf,
      getField, monthContrib, monthFieldName_2025, JSVal.truthy]

/-- Witness for C3: the first record bearing code P1 is kept by the
deduplication of the duplicate-code example. -/
theorem dedup_first_wins_witness :
    projP1a ∈ uniqueData [projP1a, projP1b] := by
  refine (dedup_first_wins.1 [projP1a, projP1b]).2.2.2 (.vStr "P1") projP1a ?_
  decide

/-- C1 is refuted by the source: the date branch of `calculateInvoiceData`
adds to a bucket without setting `monthAdded` (ProjectCharts.jsx 290-300,
unlike the month/year branch at 284), so the month-name branch at 302-309
fires again for the same record.  A single invoice with a valid 2025-03-15
date, month name January and payment 100 is added to both March and January:
its 100 appears twice in the 2025 totals. -/
theorem invoice_date_rule_double_adds :
    calculateInvoiceData [invDateAndName] 2025
      = some [100, 0, 100, 0, 0, 0, 0, 0, 0, 0, 0, 0] := by
  have hd2 : invoiceDateOf
      ⟨some (.vStr "2025-03-15"), none, none, some (.vStr "January"),
        some (.vNum 100)⟩ = some (2025, 3) := rfl
  have hm : findMonthByNum (3 : ℚ) = some "Mar" := by
    norm_num [findMonthByNum, monthNumbers, List.find?]
  simp +decide [calculateInvoiceData, monthlyPaymentsOf, invoiceStep,
    invDateAndName, hd2, paymentAmountOf, paymentAmountVal, truthyOpt,
    JSVal.truthy, toNumber, hm, months, bump]

/-- C4 is refuted by the source: the quarterly numbers are computed from the
monthly view's `selectedYear` data, while `selectedYearQuarterly` never enters
the computation.  With a dataset whose 2024 January total is 5 and 2025
January total is 243500, the quarterly chart labelled 2025 (monthly view on
2024) shows Q1 = 5, though the rollup of the year-2025 monthly data has
Q1 = 243500; and the quarterly year parameter has no effect at all. -/
theorem quarterly_view_ignores_quarterly_year :
    (quarterlyView dataTwoYears 2024 2025).map
        (fun qd => qd.quarterlyRevenue.getD 0 0) = some 5
    ∧ ((calculateMonthlyData dataTwoYears 2025).bind
          (fun md => calculateQuarterlyData md.monthlyRevenue)).map
        (fun qd => qd.quarterlyRevenue.getD 0 0) = some 243500
    ∧ quarterlyView dataTwoYears 2024 2025
        ≠ (calculateMonthlyData dataTwoYears 2025).bind
            (fun md => calculateQuarterlyData md.monthlyRevenue)
    ∧ ∀ y1 y2 : ℤ,
        quarterlyView dataTwoYears 2024 y1 = quarterlyView dataTwoYears 2024 y2 := by
  have hne : dataTwoYears.isEmpty = false := rfl
  have hm24 : monthlyRevenueRaw (uniqueData dataTwoYears) 2024
      = [5, 0, 0, 0, 0, 0, 0, 0, 0, 0, 0, 0] := by
    simp [monthlyRevenueRaw, months, monthlyTotal, uniqueData, dedupAux,
      dataTwoYears, projectCodeOf, getField, monthContrib, monthFieldName_2024,
      JSVal.truthy]
  have hm25 : monthlyRevenueRaw (uniqueData dataTwoYears) 2025
      = [243500, 0, 0, 0, 0, 0, 0, 0, 0, 0, 0, 0] := by
    simp [monthlyRevenueRaw, months, monthlyTotal, uniqueData, dedupAux,
      dataTwoYears, projectCodeOf, getField, monthContrib, monthFieldName_2025,
      JSVal.truthy]
  have h24 : calculateMonthlyData dataTwoYears 2024
      = some ⟨[5, 0, 0, 0, 0, 0, 0, 0, 0, 0, 0, 0],
              cumulativeOf [5, 0, 0, 0, 0, 0, 0, 0, 0, 0, 0, 0]⟩ := by
    simp [calculateMonthlyData, hne, hm24]
  have h25 : calculateMonthlyData dataTwoYears 2025
      = some ⟨[243500, 0, 0, 0, 0, 0, 0, 0, 0, 0, 0, 0],
              cumulativeOf [243500, 0, 0, 0, 0, 0, 0, 0, 0, 0, 0, 0]⟩ := by
    norm_num [calculateMonthlyData, hne, hm25]
  have hc1 : (quarterlyView dataTwoYears 2024 2025).map
      (fun qd => qd.quarterlyRevenue.getD 0 0) = some 5 := by
    norm_num [quarterlyView, h24, calculateQuarterlyData]
  have hq25 : calculateQuarterlyData [243500, 0, 0, 0, 0, 0, 0, 0, 0, 0, 0, 0]
      = some ⟨[243500, 0, 0, 0], cumulativeOf [243500, 0, 0, 0]⟩ := by
    norm_num [calculateQuarterlyData]
  have hc2 : ((calculateMonthlyData dataTwoYears 2025).bind
        (fun md => calculateQuarterlyData md.monthlyRevenue)).map
      (fun qd => qd.quarterlyRevenue.getD 0 0) = some 243500 := by
    simp [h25, hq25]
  refine ⟨hc1, hc2, ?_, fun y1 y2 => rfl⟩
  intro heq
  rw [heq] at hc1
  rw [hc2] at hc1
  norm_num at hc1

theorem invoiceStep_falsy (y : ℤ) (mp : String → ℚ) (inv : Invoice)
    (h : truthyOpt inv.payment_amount_usd = false) :
    invoiceStep y mp inv = mp := by
  simp [invoiceStep, h]

theorem invoiceStep_nonpos (y : ℤ) (mp : String → ℚ) (inv : Invoice)
    (h : paymentAmountOf inv ≤ 0) :
    invoiceStep y mp inv = mp := by
  unfold invoiceStep
  split
  · rfl
  · simp [h]

theorem invoiceStep_invalid (y : ℤ) (mp : String → ℚ) (inv : Invoice)
    (h : invalidPayment inv = true) :
    invoiceStep y mp inv = mp := by
  rw [invalidPayment, Bool.or_eq_true] at h
  rcases h with h1 | h2
  · exact invoiceStep_falsy y mp inv (by simpa using h1)
  · exact invoiceStep_nonpos y mp inv (of_decide_eq_true h2)

theorem foldl_invoiceStep_all_invalid (y : ℤ) (invs : List Invoice) :
    ∀ mp, (∀ inv ∈ invs, invalidPayment inv = true) →
      invs.foldl (invoiceStep y) mp = mp := by
  induction invs with
  | nil => intro mp _; rfl
  | cons inv rest ih =>
    intro mp hall
    rw [List.foldl_cons,
      invoiceStep_invalid y mp inv (hall inv (List.mem_cons_self _ _))]
    exact ih mp (fun i hi => hall i (List.mem_cons_of_mem _ hi))

/-- C8: on any non-empty invoice list the reconciliation completes with a
12-entry result; any row with a falsy or non-positive payment amount leaves
every bucket unchanged; and a batch consisting only of such rows yields twelve
explicit zeros (months with no contributing invoices report 0, not absent). -/
theorem invoice_batch_tolerates_bad_rows (invs : List Invoice) (y : ℤ)
    (h : invs ≠ []) :
    (∃ r, calculateInvoiceData invs y = some r ∧ r.length = 12)
    ∧ (∀ (mp : String → ℚ) (inv : Invoice),
        invalidPayment inv = true → invoiceStep y mp inv = mp)
    ∧ ((∀ inv ∈ invs, invalidPayment inv = true) →
        calculateInvoiceData invs y = some (List.replicate 12 0)) := by
  have hne : invs.isEmpty = false := by
    simpa [List.isEmpty_iff] using h
  refine ⟨⟨months.map (monthlyPaymentsOf invs y), ?_, ?_⟩,
    invoiceStep_invalid y, ?_⟩
  · simp [calculateInvoiceData, hne]
  · simp [months]
  · intro hall
    have hz : monthlyPaymentsOf invs y = fun _ => 0 :=
      foldl_invoiceStep_all_invalid y invs (fun _ => 0) hall
    simp [calculateInvoiceData, hne, monthlyPaymentsOf] at hz ⊢
    rw [hz]
    simp [months, List.map_const]

/-- Witness for C8: a batch holding only the unparsable invoice yields twelve
zeros. -/
theorem invoice_batch_tolerates_bad_rows_witness :
    calculateInvoiceData [invNA] 2025 = some (List.replicate 12 0) := by
  refine (invoice_batch_tolerates_bad_rows [invNA] 2025 (by simp)).2.2 ?_
  intro inv hinv
  have hi : inv = invNA := by simpa using hinv
  subst hi
  rfl

/-- C7: a numeric payment amount is used as is; a string one is parsed after
stripping every character except digits, dot and minus; the concrete string
with currency symbol and comma normalizes to 1200.50; the unparsable N/A
string parses to 0; and any invoice whose parsed amount is not positive
leaves every bucket untouched — in particular an N/A-amount batch entry
contributes nothing to any month. -/
theorem payment_amount_normalization :
    (∀ q : ℚ, paymentAmountVal (.vNum q) = q)
    ∧ (∀ s : String,
        paymentAmountVal (.vStr s) = (parseFloatJS (stripNonNumeric s)).getD 0)
    ∧ paymentAmountVal (.vStr "$1,200.50") = 1200.50
    ∧ paymentAmountVal (.vStr "N/A") = 0
    ∧ (∀ (y : ℤ) (mp : String → ℚ) (inv : Invoice),
        paymentAmountOf inv ≤ 0 → invoiceStep y mp inv = mp)
    ∧ ∀ y : ℤ, calculateInvoiceData [invNA] y = some (List.replicate 12 0) := by
  refine ⟨fun q => rfl, fun s => rfl, ?_, rfl, invoiceStep_nonpos, ?_⟩
  · have h1 : stripNonNumeric "$1,200.50" = "1200.50" := rfl
    have h2 : parseFloatJS "1200.50"
        = some (1 * ((1200 : ℚ) + (50 : ℚ) / (10 : ℚ) ^ 2)) := rfl
    simp only [paymentAmountVal, h1, h2, Option.getD_some]
    norm_num
  · intro y
    have hz : [invNA].foldl (invoiceStep y) (fun _ => 0) = fun _ => 0 := by
      rw [List.foldl_cons, invoiceStep_nonpos y _ invNA (le_of_eq rfl)]
      rfl
    simp [calculateInvoiceData, monthlyPaymentsOf, hz, months, List.map_const]

/-- Witness for C7: the N/A invoice leaves the zero bucket map unchanged. -/
theorem payment_amount_normalization_witness :
    invoiceStep 2025 (fun _ => 0) invNA = fun _ => 0 :=
  payment_amount_normalization.2.2.2.2.1 2025 (fun _ => 0) invNA (le_of_eq rfl)

/-- C10: an invoice with a positive payment, no usable month/year pair, no
date and no year field, whose month name starts with a month abbreviation, is
added to that month for whatever year the aggregation is run with — it is
counted into every selected year's totals. -/
theorem month_name_counted_for_every_year (y : ℤ) (p : ℚ) (hp : 0 < p) :
    calculateInvoiceData [invMonthNameOnly p] y
      = some [p, 0, 0, 0, 0, 0, 0, 0, 0, 0, 0, 0] := by
  have hne : p ≠ 0 := ne_of_gt hp
  have hnle : ¬p ≤ 0 := not_le.mpr hp
  simp +decide [calculateInvoiceData, monthlyPaymentsOf, invoiceStep,
    invMonthNameOnly, paymentAmountOf, paymentAmountVal, truthyOpt,
    JSVal.truthy, toNumber, invoiceDateOf, months, bump, hne, hnle]

/-- Witness for C10: the month-name-only invoice with amount 100 is counted
into 2024 (the same holds at any other selected year). -/
theorem month_name_counted_for_every_year_witness :
    calculateInvoiceData [invMonthNameOnly 100] 2024
      = some [100, 0, 0, 0, 0, 0, 0, 0, 0, 0, 0, 0] :=
  month_name_counted_for_every_year 2024 100 (by norm_num)

theorem statusCounts_foldl (l : List Project) :
    ∀ (acc : String → ℕ) (s : String),
      l.foldl (fun acc2 p => fun s2 =>
        if s2 = statusOf p then acc2 s2 + 1 else acc2 s2) acc s
        = acc s + (l.map statusOf).count s := by
  induction l with
  | nil => intro acc s; simp
  | cons p ps ih =>
    intro acc s
    rw [List.foldl_cons, ih]
    by_cases hs : s = statusOf p <;>
      simp [hs, List.count_cons] <;> omega

theorem statusCounts_eq_count (l : List Project) (s : String) :
    statusCounts l s = (l.map statusOf).count s := by
  simpa [statusCounts] using statusCounts_foldl l (fun _ => 0) s

/-- C9: the status distribution counts rows per status string, an absent
status mapping to the literal Unknown; the concrete three-row example counts
exactly two Active and one Unknown, and nothing else. -/
theorem status_distribution :
    (∀ (l : List Project) (s : String),
      statusCounts l s = (l.map statusOf).count s)
    ∧ statusOf ([] : Project) = "Unknown"
    ∧ statusCounts exStatusRows "Active" = 2
    ∧ statusCounts exStatusRows "Unknown" = 1
    ∧ ∀ s : String, s ≠ "Active" → s ≠ "Unknown" →
        statusCounts exStatusRows s = 0 := by
  refine ⟨statusCounts_eq_count, rfl, by decide, by decide, ?_⟩
  intro s h1 h2
  rw [statusCounts_eq_count]
  have hmap : exStatusRows.map statusOf = ["Active", "Active", "Unknown"] := by
    decide
  rw [hmap]
  simp [List.count_cons, h1, h2, Ne.symm h1, Ne.symm h2]

/-- Witness for C9: a status string other than Active and Unknown counts 0 in
the example. -/
theorem status_distribution_witness :
    statusCounts exStatusRows "Closed" = 0 :=
  status_distribution.2.2.2.2 "Closed" (by decide) (by decide)
